import Mathlib

/-!
Verification of the jsonrpcpp JSON-RPC 2.0 message-model library.

The repository ships the class declarations in `lib/jsonrp.hpp` together with
the implementation of the exception hierarchy (`ParseErrorException`,
`RequestException` and its four specializations, including their `to_json`
and no-op `parse` members) and the `Parameter::get` template accessors.
The bodies of the remaining `parse`/`to_json` members and of the `Parser`
dispatcher live in `lib/jsonrp.cpp`, which is not part of the sources at
hand; those operations are modelled from the specification, each marked
`Modelled from the spec:` in its doc comment.

Machine integers (`int` ids and error codes) are modelled as unbounded `Int`;
JSON numbers are likewise modelled as integers, which covers every value the
claims mention.  `nlohmann::json` objects are modelled as insertion-ordered
association lists; structural equality "ignoring key ordering" is the
relation `JEqv` below.
-/

set_option maxHeartbeats 1000000

namespace jsonrpcpp

/-- Generic JSON value tree produced by the external lexer
(`nlohmann::json`, consumed as a black box). Objects keep their fields as an
ordered association list. -/
inductive Json where
  | null
  | bool (b : Bool)
  | num (n : Int)
  | str (s : String)
  | arr (elems : List Json)
  | obj (fields : List (String × Json))

/-- First binding of key `k` in an object's field list (`json["k"]`). -/
def lookupField (k : String) : List (String × Json) → Option Json
  | [] => none
  | (k', v) :: rest => if k' = k then some v else lookupField k rest

/-- Key-presence test on an object's field list (`json.count(k) > 0`). -/
def keyOccurs (k : String) : List (String × Json) → Bool
  | [] => false
  | (k', _) :: rest => if k' = k then true else keyOccurs k rest

/-- All keys of the field list are pairwise distinct. -/
def keysNodup : List (String × Json) → Bool
  | [] => true
  | (k, _) :: rest => !keyOccurs k rest && keysNodup rest

mutual

/-- Well-formed JSON value: every object in the tree has distinct keys.
`nlohmann::json` objects always satisfy this (they are maps). -/
def Json.wf : Json → Bool
  | .null => true
  | .bool _ => true
  | .num _ => true
  | .str _ => true
  | .arr xs => wfList xs
  | .obj fs => keysNodup fs && wfFields fs

def wfList : List Json → Bool
  | [] => true
  | x :: xs => Json.wf x && wfList xs

def wfFields : List (String × Json) → Bool
  | [] => true
  | (_, v) :: fs => Json.wf v && wfFields fs

end

/-- Structural equality of JSON values ignoring the ordering of object keys:
scalars must coincide, arrays must agree element by element, and objects must
have the same key set (keys taken distinct) with equivalent values. -/
inductive JEqv : Json → Json → Prop where
  | null : JEqv .null .null
  | bool (b : Bool) : JEqv (.bool b) (.bool b)
  | num (n : Int) : JEqv (.num n) (.num n)
  | str (s : String) : JEqv (.str s) (.str s)
  | arr (xs ys : List Json) : xs.length = ys.length →
      (∀ x y, (x, y) ∈ xs.zip ys → JEqv x y) → JEqv (.arr xs) (.arr ys)
  | obj (fs gs : List (String × Json)) : keysNodup fs = true → keysNodup gs = true →
      (∀ k, (lookupField k fs).isSome = (lookupField k gs).isSome) →
      (∀ k v w, lookupField k fs = some v → lookupField k gs = some w → JEqv v w) →
      JEqv (.obj fs) (.obj gs)

theorem mem_zip_self {xs : List Json} {x y : Json} (h : (x, y) ∈ xs.zip xs) :
    x = y ∧ x ∈ xs := by
  induction xs with
  | nil => simp [List.zip] at h
  | cons a l ih =>
    rw [List.zip_cons_cons] at h
    rcases List.mem_cons.mp h with h | h
    · obtain ⟨hx, hy⟩ := Prod.mk.injEq .. ▸ h
      refine ⟨hx.trans hy.symm, ?_⟩
      rw [hx]; exact List.mem_cons_self a l
    · rcases ih h with ⟨h1, h2⟩
      exact ⟨h1, List.mem_cons_of_mem a h2⟩

theorem lookupField_sizeOf {k : String} {fs : List (String × Json)} {v : Json}
    (h : lookupField k fs = some v) : sizeOf v < sizeOf fs := by
  induction fs with
  | nil => simp [lookupField] at h
  | cons kv rest ih =>
    obtain ⟨k', w⟩ := kv
    simp only [lookupField] at h
    by_cases hk : k' = k
    · simp [hk] at h
      subst h
      simp
      omega
    · simp [hk] at h
      have := ih h
      simp
      omega

theorem wfList_mem {xs : List Json} {x : Json} (hwf : wfList xs = true)
    (hx : x ∈ xs) : Json.wf x = true := by
  induction xs with
  | nil => simp at hx
  | cons a l ih =>
    simp only [wfList, Bool.and_eq_true] at hwf
    rcases List.mem_cons.mp hx with h | h
    · subst h; exact hwf.1
    · exact ih hwf.2 h

theorem wfFields_lookup {k : String} {fs : List (String × Json)} {v : Json}
    (hwf : wfFields fs = true) (h : lookupField k fs = some v) : Json.wf v = true := by
  induction fs with
  | nil => simp [lookupField] at h
  | cons kv rest ih =>
    obtain ⟨k', w⟩ := kv
    simp only [wfFields, Bool.and_eq_true] at hwf
    simp only [lookupField] at h
    by_cases hk : k' = k
    · simp [hk] at h
      subst h
      exact hwf.1
    · simp [hk] at h
      exact ih hwf.2 h

/-- Reflexivity of `JEqv` on well-formed values. -/
theorem jeqv_refl (v : Json) (h : Json.wf v = true) : JEqv v v := by
  match v with
  | .null => exact .null
  | .bool b => exact .bool b
  | .num n => exact .num n
  | .str s => exact .str s
  | .arr xs =>
    apply JEqv.arr _ _ rfl
    intro x y hxy
    obtain ⟨hxyeq, hmem⟩ := mem_zip_self hxy
    subst hxyeq
    have hs : sizeOf x < 1 + sizeOf xs := by
      have := List.sizeOf_lt_of_mem hmem
      omega
    exact jeqv_refl x (wfList_mem (by simpa [Json.wf] using h) hmem)
  | .obj fs =>
    simp only [Json.wf, Bool.and_eq_true] at h
    apply JEqv.obj _ _ h.1 h.1 (fun _ => rfl)
    intro k v' w hv hw
    rw [hv] at hw
    cases hw
    have hs : sizeOf v' < 1 + sizeOf fs := by
      have := lookupField_sizeOf hv
      omega
    exact jeqv_refl v' (wfFields_lookup h.2 hv)
termination_by sizeOf v
decreasing_by all_goals (simp_wf; omega)

/-- Correlation id (`struct Id`): tagged union of null, integer and string,
mirroring `Id::value_t` with the active one of `int_id`/`string_id`. -/
inductive Id where
  | null
  | intId (int_id : Int)
  | strId (string_id : String)

/-- The `params` field (`struct Parameter`): null, positional (`param_array`)
or named (`param_map`) arguments, mirroring `Parameter::value_t`. -/
inductive Parameter where
  | null
  | posParams (param_array : List Json)
  | namedParams (param_map : List (String × Json))

/-- Structured error (`class Error`): code, message and optional data.
The spec has `data` default to absent and be emitted only when present. -/
structure Error where
  code : Int
  message : String
  data : Option Json

/-- `class Request`: method, params and id. -/
structure Request where
  method : String
  params : Parameter
  id : Id

/-- `class Notification`: method and params, no id by construction. -/
structure Notification where
  method : String
  params : Parameter

/-- `class Response`: id plus exactly one of result/error (the invariant the
spec states; `none`/`some` record which one is set). -/
structure Response where
  id : Id
  result : Option Json
  error : Option Error

/-- `class ParseErrorException`: failure of the outer text-to-JSON step,
carrying a structured error (code -32700). -/
structure ParseErrorException where
  error : Error

/-- `class RequestException`: request-scoped structured failure carrying an
error and the best-effort recovered id. -/
structure RequestException where
  error : Error
  id : Id

/-- `InvalidRequestException(requestId)`: `Error("Invalid request", -32600)`
from `jsonrp.hpp`. -/
def InvalidRequestException (requestId : Id) : RequestException :=
  ⟨⟨-32600, "Invalid request", none⟩, requestId⟩

/-- `MethodNotFoundException(requestId)`: `Error("Method not found", -32601)`
from `jsonrp.hpp`. -/
def MethodNotFoundException (requestId : Id) : RequestException :=
  ⟨⟨-32601, "Method not found", none⟩, requestId⟩

/-- `InvalidParamsException(requestId)`: `Error("Invalid params", -32602)`
from `jsonrp.hpp`. -/
def InvalidParamsException (requestId : Id) : RequestException :=
  ⟨⟨-32602, "Invalid params", none⟩, requestId⟩

/-- `InternalErrorException(requestId)`: `Error("Internal error", -32603)`
from `jsonrp.hpp`. -/
def InternalErrorException (requestId : Id) : RequestException :=
  ⟨⟨-32603, "Internal error", none⟩, requestId⟩

/-- `MethodNotFoundException(const Request&)`: reuses the request's id
(`jsonrp.hpp` line 369). -/
def MethodNotFoundException.ofRequest (request : Request) : RequestException :=
  MethodNotFoundException request.id

/-- `ParseErrorException(const std::string& data)`: builds
`Error("Parse error", -32700, data)` (`jsonrp.hpp` line 284). -/
def ParseErrorException.ofData (data : String) : ParseErrorException :=
  ⟨⟨-32700, "Parse error", some (.str data)⟩⟩

/-- A structured failure raised during classification or construction:
either a `ParseErrorException` or a `RequestException` (the two
exception-entities of the hierarchy). -/
inductive Exc where
  | parseError (e : ParseErrorException)
  | requestError (e : RequestException)

/-- The message-entity variants the classifier can produce
(`Entity::entity_t`); a batch holds its members, a failed batch member is
recorded as an exception entity. -/
inductive Entity where
  | request (r : Request)
  | notification (n : Notification)
  | response (r : Response)
  | exception (e : Exc)
  | batch (entities : List Entity)

/-- `Id::to_json()`: re-emit the JSON null/number/string matching the stored
variant. Modelled from the spec: `jsonrp.cpp` is absent. -/
def Id.toJson : Id → Json
  | .null => .null
  | .intId n => .num n
  | .strId s => .str s

/-- `Id::parse(json)`: null/number/string map to the matching variant, any
other kind is a violation surfaced by the caller. Modelled from the spec:
`jsonrp.cpp` is absent. -/
def Id.parse : Json → Except Exc Id
  | .null => .ok .null
  | .num n => .ok (.intId n)
  | .str s => .ok (.strId s)
  | _ => .error (.requestError (InvalidRequestException .null))

/-- `Parameter::to_json()`: re-emit the stored arguments verbatim.
Modelled from the spec: `jsonrp.cpp` is absent. -/
def Parameter.toJson : Parameter → Json
  | .null => .null
  | .posParams xs => .arr xs
  | .namedParams fs => .obj fs

/-- `Parameter::parse(json)`: null, array and object map to the three
variants (elements stored verbatim); any other kind is a structural
violation failing the containing entity's parse. Modelled from the spec:
`jsonrp.cpp` is absent. -/
def Parameter.parse : Json → Except Exc Parameter
  | .null => .ok .null
  | .arr xs => .ok (.posParams xs)
  | .obj fs => .ok (.namedParams fs)
  | _ => .error (.requestError (InvalidRequestException .null))

/-- Parse an optional `params` member: an absent key yields the null
variant, not a violation. Modelled from the spec: `jsonrp.cpp` is absent. -/
def parseParams : Option Json → Except Exc Parameter
  | none => .ok .null
  | some j => Parameter.parse j

/-- `Error::to_json()`: always emits `code` and `message`, and `data` only
when present. Modelled from the spec: `jsonrp.cpp` is absent. -/
def Error.toJson (e : Error) : Json :=
  .obj ([("code", .num e.code), ("message", .str e.message)] ++
    match e.data with
    | some d => [("data", d)]
    | none => [])

/-- `Error::parse(json)`: requires an object with integer `code` and string
`message`; `data` is optional. Modelled from the spec: `jsonrp.cpp` is
absent. -/
def Error.parse : Json → Except Exc Error
  | .obj fs =>
    match lookupField "code" fs, lookupField "message" fs with
    | some (.num c), some (.str m) => .ok ⟨c, m, lookupField "data" fs⟩
    | _, _ => .error (.requestError (InvalidRequestException .null))
  | _ => .error (.requestError (InvalidRequestException .null))

/-- `Request::to_json()`: `jsonrpc`, `method`, `id`, and `params` only when
non-null. Modelled from the spec: `jsonrp.cpp` is absent. -/
def Request.toJson (r : Request) : Json :=
  .obj ([("jsonrpc", .str "2.0"), ("method", .str r.method), ("id", r.id.toJson)] ++
    match r.params with
    | .null => []
    | p => [("params", p.toJson)])

/-- `Request::parse(json)`: requires an object whose `method` is a string
and whose `id` is present and a valid identifier; `params` via
`Parameter::parse`. A violation on the `method` field carries no id, other
violations carry the recovered id. Modelled from the spec: `jsonrp.cpp` is
absent. -/
def Request.parse : Json → Except Exc Request
  | .obj fs =>
    match lookupField "method" fs with
    | some (.str m) =>
      match lookupField "id" fs with
      | some jid =>
        match Id.parse jid with
        | .ok i =>
          match parseParams (lookupField "params" fs) with
          | .ok p => .ok ⟨m, p, i⟩
          | .error _ => .error (.requestError (InvalidRequestException i))
        | .error _ => .error (.requestError (InvalidRequestException .null))
      | none => .error (.requestError (InvalidRequestException .null))
    | _ => .error (.requestError (InvalidRequestException .null))
  | _ => .error (.requestError (InvalidRequestException .null))

/-- `Notification::to_json()`: `jsonrpc`, `method`, and `params` only when
non-null; no id. Modelled from the spec: `jsonrp.cpp` is absent. -/
def Notification.toJson (n : Notification) : Json :=
  .obj ([("jsonrpc", .str "2.0"), ("method", .str n.method)] ++
    match n.params with
    | .null => []
    | p => [("params", p.toJson)])

/-- `Notification::parse(json)`: same shape rules as `Request` minus the
id. Modelled from the spec: `jsonrp.cpp` is absent. -/
def Notification.parse : Json → Except Exc Notification
  | .obj fs =>
    match lookupField "method" fs with
    | some (.str m) =>
      match parseParams (lookupField "params" fs) with
      | .ok p => .ok ⟨m, p⟩
      | .error _ => .error (.requestError (InvalidRequestException .null))
    | _ => .error (.requestError (InvalidRequestException .null))
  | _ => .error (.requestError (InvalidRequestException .null))

/-- `Response::to_json()`: `jsonrpc`, `id`, and exactly the one of
result/error that is set. Modelled from the spec: `jsonrp.cpp` is absent. -/
def Response.toJson (r : Response) : Json :=
  .obj ([("jsonrpc", .str "2.0"), ("id", r.id.toJson)] ++
    match r.result, r.error with
    | some v, _ => [("result", v)]
    | none, some e => [("error", e.toJson)]
    | none, none => [])

/-- `Response::parse(json)`: requires an object with an `id`; exactly one of
`result`/`error` must be present, both or neither is a structural violation.
`error` is parsed via `Error::parse`. Modelled from the spec: `jsonrp.cpp`
is absent. -/
def Response.parse : Json → Except Exc Response
  | .obj fs =>
    match lookupField "id" fs with
    | some jid =>
      match Id.parse jid with
      | .ok i =>
        match lookupField "result" fs, lookupField "error" fs with
        | some r, none => .ok ⟨i, some r, none⟩
        | none, some e =>
          match Error.parse e with
          | .ok err => .ok ⟨i, none, some err⟩
          | .error _ => .error (.requestError (InvalidRequestException i))
        | _, _ => .error (.requestError (InvalidRequestException i))
      | .error _ => .error (.requestError (InvalidRequestException .null))
    | none => .error (.requestError (InvalidRequestException .null))
  | _ => .error (.requestError (InvalidRequestException .null))

/-- `ParseErrorException::to_json()` (`jsonrp.hpp` lines 292-301): a
complete error response with id null. -/
def ParseErrorException.toJson (e : ParseErrorException) : Json :=
  .obj [("jsonrpc", .str "2.0"), ("error", e.error.toJson), ("id", .null)]

/-- `ParseErrorException::parse(json)` (`jsonrp.hpp` lines 288-290): the
body is empty, so the entity is returned unchanged and the call never
fails. -/
def ParseErrorException.parse (e : ParseErrorException) (_json : Json) :
    Except Exc ParseErrorException :=
  .ok e

/-- `RequestException::to_json()` (`jsonrp.hpp` lines 326-335): a complete
error response carrying the stored id. -/
def RequestException.toJson (e : RequestException) : Json :=
  .obj [("jsonrpc", .str "2.0"), ("error", e.error.toJson), ("id", e.id.toJson)]

/-- `RequestException::parse(json)` (`jsonrp.hpp` lines 322-324): the body
is empty, so the entity is returned unchanged and the call never fails. -/
def RequestException.parse (e : RequestException) (_json : Json) :
    Except Exc RequestException :=
  .ok e

/-- Best-effort id recovery for a structural failure: the parsed `id`
member when present and valid, otherwise null. Modelled from the spec:
`jsonrp.cpp` is absent ("carrying whatever Identifier could be recovered,
absent implies null"). -/
def recoverId (fs : List (String × Json)) : Id :=
  match lookupField "id" fs with
  | some j =>
    match Id.parse j with
    | .ok i => i
    | .error _ => Id.null
  | none => Id.null

mutual

/-- `Parser::parse(const Json&)`: arrays become batches (empty array is a
violation); objects are classified by key inspection with the spec's
precedence (method and no id: Notification; method and id: Request; id and
result-or-error: Response; otherwise an invalid-request failure carrying
the best-effort recovered id). Modelled from the spec: `jsonrp.cpp` is
absent. -/
def Parser.parseJson : Json → Except Exc Entity
  | .arr xs =>
    if xs.isEmpty then .error (.requestError (InvalidRequestException .null))
    else .ok (.batch (Parser.parseElems xs))
  | .obj fs =>
    if keyOccurs "method" fs && !keyOccurs "id" fs then
      (Notification.parse (.obj fs)).map .notification
    else if keyOccurs "method" fs && keyOccurs "id" fs then
      (Request.parse (.obj fs)).map .request
    else if keyOccurs "id" fs && (keyOccurs "result" fs || keyOccurs "error" fs) then
      (Response.parse (.obj fs)).map .response
    else
      .error (.requestError (InvalidRequestException (recoverId fs)))
  | _ => .error (.requestError (InvalidRequestException .null))

/-- `Batch::parse` element loop: each array element is classified and
constructed independently; a failing element does not abort the batch but
is recorded as an exception entity, preserving input order. Modelled from
the spec: `jsonrp.cpp` is absent. -/
def Parser.parseElems : List Json → List Entity
  | [] => []
  | x :: xs =>
    (match Parser.parseJson x with
     | .ok e => e
     | .error ex => .exception ex) :: Parser.parseElems xs

end

/-- `Parser::parse(const std::string&)`: the external lexer's outcome is
taken as input; its failure is re-raised as a `ParseErrorException`
carrying the lexer's message as data, a success is dispatched to
`Parser::parse(const Json&)`. Modelled from the spec: `jsonrp.cpp` is
absent. -/
def Parser.parseText (lexed : Except String Json) : Except Exc Entity :=
  match lexed with
  | .error msg => .error (.parseError (ParseErrorException.ofData msg))
  | .ok j => Parser.parseJson j

/-- `Parser::is_request`: the classifier's key-inspection test, without
construction. Modelled from the spec: `jsonrp.cpp` is absent. -/
def Parser.is_request : Json → Bool
  | .obj fs => keyOccurs "method" fs && keyOccurs "id" fs
  | _ => false

/-- `Parser::is_notification`: the classifier's key-inspection test,
without construction. Modelled from the spec: `jsonrp.cpp` is absent. -/
def Parser.is_notification : Json → Bool
  | .obj fs => keyOccurs "method" fs && !keyOccurs "id" fs
  | _ => false

/-- `Parser::is_response`: the classifier's key-inspection test, without
construction. Modelled from the spec: `jsonrp.cpp` is absent. -/
def Parser.is_response : Json → Bool
  | .obj fs => keyOccurs "id" fs && (keyOccurs "result" fs || keyOccurs "error" fs)
  | _ => false

/-- `Parser::is_batch`: arrays and nothing else. Modelled from the spec:
`jsonrp.cpp` is absent. -/
def Parser.is_batch : Json → Bool
  | .arr _ => true
  | _ => false

/-- Whether `Parser::parse` succeeds on the given JSON value. -/
def Parser.parseOk (j : Json) : Bool :=
  match Parser.parseJson j with
  | .ok _ => true
  | .error _ => false

/-- Field list of a JSON object (empty for non-objects). -/
def Json.objFields : Json → List (String × Json)
  | .obj fs => fs
  | _ => []

/-- `Parameter::has(const std::string&)`: non-throwing presence check on
the named variant. Modelled from the spec: `jsonrp.cpp` is absent. -/
def Parameter.hasKey (p : Parameter) (key : String) : Bool :=
  match p with
  | .namedParams fs => keyOccurs key fs
  | _ => false

/-- `Parameter::has(size_t)`: non-throwing bounds check on the positional
variant. Modelled from the spec: `jsonrp.cpp` is absent. -/
def Parameter.hasIdx (p : Parameter) (idx : Nat) : Bool :=
  match p with
  | .posParams xs => decide (idx < xs.length)
  | _ => false

/-- `Parameter::get(const std::string&)`: raw access by key, failing with a
not-found condition when absent. Modelled from the spec: `jsonrp.cpp` is
absent. -/
def Parameter.getKey (p : Parameter) (key : String) : Except String Json :=
  match p with
  | .namedParams fs =>
    match lookupField key fs with
    | some v => .ok v
    | none => .error "not found"
  | _ => .error "not found"

/-- `Parameter::get(size_t)`: raw access by index, failing with a not-found
condition when out of range. Modelled from the spec: `jsonrp.cpp` is
absent. -/
def Parameter.getIdx (p : Parameter) (idx : Nat) : Except String Json :=
  match p with
  | .posParams xs =>
    match xs[idx]? with
    | some v => .ok v
    | none => .error "not found"
  | _ => .error "not found"

/-- `template<typename T> T get(const std::string& key)` (`jsonrp.hpp`
lines 160-164): raw access then typed coercion; the external `Json::get<T>`
coercion is passed in, returning `none` on a type mismatch, which makes the
accessor fail. -/
def Parameter.getTypedKey {α : Type} (p : Parameter) (key : String)
    (coerce : Json → Option α) : Except String α :=
  match p.getKey key with
  | .ok v =>
    match coerce v with
    | some t => .ok t
    | none => .error "type mismatch"
  | .error e => .error e

/-- `template<typename T> T get(size_t idx)` (`jsonrp.hpp` lines 166-170):
raw access by index then typed coercion. -/
def Parameter.getTypedIdx {α : Type} (p : Parameter) (idx : Nat)
    (coerce : Json → Option α) : Except String α :=
  match p.getIdx idx with
  | .ok v =>
    match coerce v with
    | some t => .ok t
    | none => .error "type mismatch"
  | .error e => .error e

/-- `template<typename T> T get(const std::string& key, const T& default_value)`
(`jsonrp.hpp` lines 172-179): if `has(key)` fails return the default,
otherwise the typed accessor. -/
def Parameter.getKeyD {α : Type} (p : Parameter) (key : String)
    (coerce : Json → Option α) (default_value : α) : Except String α :=
  if !(p.hasKey key) then .ok default_value
  else p.getTypedKey key coerce

/-- `template<typename T> T get(size_t idx, const T& default_value)`
(`jsonrp.hpp` lines 181-188): if `has(idx)` fails return the default,
otherwise the typed accessor. -/
def Parameter.getIdxD {α : Type} (p : Parameter) (idx : Nat)
    (coerce : Json → Option α) (default_value : α) : Except String α :=
  if !(p.hasIdx idx) then .ok default_value
  else p.getTypedIdx idx coerce

/-- The `Json::get<int>` coercion of the external JSON library: succeeds
exactly on numbers. -/
def asInt : Json → Option Int
  | .num n => some n
  | _ => none

theorem lookupField_isSome (k : String) (fs : List (String × Json)) :
    (lookupField k fs).isSome = keyOccurs k fs := by
  induction fs with
  | nil => rfl
  | cons kv rest ih =>
    obtain ⟨k', v⟩ := kv
    simp only [lookupField, keyOccurs]
    by_cases hk : k' = k <;> simp [hk, ih]

theorem except_map_ok {ε α β : Type} {f : α → β} {x : Except ε α} {b : β}
    (h : Except.map f x = .ok b) : ∃ a, x = .ok a ∧ b = f a := by
  cases x with
  | error e => simp [Except.map] at h
  | ok a => exact ⟨a, rfl, by simpa [Except.map] using h.symm⟩

theorem parseJson_obj_cases (fs : List (String × Json)) (e : Entity)
    (h : Parser.parseJson (.obj fs) = .ok e) :
    ((keyOccurs "method" fs && !keyOccurs "id" fs) = true ∧ ∃ n, e = .notification n)
  ∨ ((keyOccurs "method" fs && keyOccurs "id" fs) = true ∧ ∃ r, e = .request r)
  ∨ ((keyOccurs "id" fs && (keyOccurs "result" fs || keyOccurs "error" fs)) = true
      ∧ ∃ r, e = .response r) := by
  simp only [Parser.parseJson] at h
  split at h
  next hc =>
    obtain ⟨n, _, hb⟩ := except_map_ok h
    exact Or.inl ⟨hc, n, hb⟩
  next hc1 =>
    split at h
    next hc =>
      obtain ⟨r, _, hb⟩ := except_map_ok h
      exact Or.inr (Or.inl ⟨hc, r, hb⟩)
    next hc2 =>
      split at h
      next hc =>
        obtain ⟨r, _, hb⟩ := except_map_ok h
        exact Or.inr (Or.inr ⟨hc, r, hb⟩)
      next hc3 =>
        simp at h

/-- C4: parsing the object with members jsonrpc "2.0" and id 1 (no method,
result or error) fails with the invalid-request condition, code -32600, and
the failure carries the id recovered from the input, integer 1. -/
theorem missing_method_recovers_id :
    Parser.parseJson (.obj [("jsonrpc", .str "2.0"), ("id", .num 1)]) =
      .error (.requestError ⟨⟨-32600, "Invalid request", none⟩, .intId 1⟩) := rfl

/-- C8: a batch with a valid request followed by an unrecognized object
parses as a whole into a two-element batch, in input order, whose first
member is the request and whose second member records the failure; and the
empty array fails with the invalid-request condition. -/
theorem batch_non_abort_and_empty :
    Parser.parseJson (.arr
        [.obj [("jsonrpc", .str "2.0"), ("method", .str "foo"), ("id", .num 1)],
         .obj [("foo", .str "bar")]]) =
      .ok (.batch [.request ⟨"foo", .null, .intId 1⟩,
        .exception (.requestError ⟨⟨-32600, "Invalid request", none⟩, .null⟩)])
  ∧ Parser.parseJson (.arr []) =
      .error (.requestError ⟨⟨-32600, "Invalid request", none⟩, .null⟩) :=
  ⟨rfl, rfl⟩

/-- C9: the parse members of ParseErrorException and RequestException are
no-ops on every input: the entity is returned with all fields unchanged and
the call never fails. -/
theorem exception_parse_noop :
    (∀ (e : ParseErrorException) (j : Json), ParseErrorException.parse e j = .ok e)
  ∧ (∀ (e : RequestException) (j : Json), RequestException.parse e j = .ok e) :=
  ⟨fun _ _ => rfl, fun _ _ => rfl⟩

/-- C6: whenever the external lexer rejects the input text, Parser parse
fails with the parse-failure condition: a ParseErrorException whose
structured error has code -32700 and whose serialized error response
carries id null. -/
theorem lexer_failure_parse_error (msg : String) :
    Parser.parseText (.error msg) = .error (.parseError (ParseErrorException.ofData msg))
  ∧ (ParseErrorException.ofData msg).error.code = -32700
  ∧ lookupField "id" ((ParseErrorException.ofData msg).toJson.objFields) = some .null :=
  ⟨rfl, rfl, rfl⟩

/-- C7: MethodNotFoundException built from a request with id "abc"
serializes to the complete error response with code -32601, message
"Method not found" and id "abc"; and the four request-scoped
specializations bind the codes -32600, -32601, -32602, -32603 and always
serialize as complete error responses of the shape
jsonrpc "2.0" / error object / id. -/
theorem request_exceptions_serialize :
    (∀ r : Request, r.id = .strId "abc" →
      (MethodNotFoundException.ofRequest r).toJson =
        .obj [("jsonrpc", .str "2.0"),
          ("error", .obj [("code", .num (-32601)), ("message", .str "Method not found")]),
          ("id", .str "abc")])
  ∧ (∀ i : Id,
      (InvalidRequestException i).error.code = -32600
    ∧ (MethodNotFoundException i).error.code = -32601
    ∧ (InvalidParamsException i).error.code = -32602
    ∧ (InternalErrorException i).error.code = -32603
    ∧ (InvalidRequestException i).id = i
    ∧ (MethodNotFoundException i).id = i
    ∧ (InvalidParamsException i).id = i
    ∧ (InternalErrorException i).id = i)
  ∧ (∀ e : RequestException, e.toJson =
      .obj [("jsonrpc", .str "2.0"), ("error", e.error.toJson), ("id", e.id.toJson)]) := by
  refine ⟨?_, ?_, ?_⟩
  · intro r h
    simp [MethodNotFoundException.ofRequest, MethodNotFoundException,
      RequestException.toJson, Error.toJson, Id.toJson, h]
  · intro i
    exact ⟨rfl, rfl, rfl, rfl, rfl, rfl, rfl, rfl⟩
  · intro e
    rfl

/-- C7 witness: the serialization at the concrete request with id "abc". -/
theorem request_exceptions_serialize_witness :
    (MethodNotFoundException.ofRequest ⟨"sum", .null, .strId "abc"⟩).toJson =
      .obj [("jsonrpc", .str "2.0"),
        ("error", .obj [("code", .num (-32601)), ("message", .str "Method not found")]),
        ("id", .str "abc")] :=
  request_exceptions_serialize.1 ⟨"sum", .null, .strId "abc"⟩ rfl

/-- C2 counterexample: on the object holding only the member id 7 the
classifier fails with an InvalidRequestException carrying the recovered
id 7, not the null id the claim states for the fallback case. -/
theorem classifier_else_null_id_cex :
    Parser.parseJson (.obj [("id", .num 7)]) =
      .error (.requestError (InvalidRequestException (.intId 7)))
  ∧ Id.intId 7 ≠ Id.null :=
  ⟨rfl, fun h => Id.noConfusion h⟩

/-- C2 (amended): objects are classified by key inspection with the spec's
precedence: method without id dispatches to Notification construction,
method with id to Request, id with result or error to Response; otherwise
the classifier fails with an InvalidRequestException carrying the
best-effort recovered id (null when the id member is absent or not a valid
identifier). -/
theorem classifier_precedence (fs : List (String × Json)) :
    (keyOccurs "method" fs = true → keyOccurs "id" fs = false →
      Parser.parseJson (.obj fs) = (Notification.parse (.obj fs)).map .notification)
  ∧ (keyOccurs "method" fs = true → keyOccurs "id" fs = true →
      Parser.parseJson (.obj fs) = (Request.parse (.obj fs)).map .request)
  ∧ (keyOccurs "method" fs = false → keyOccurs "id" fs = true →
      (keyOccurs "result" fs || keyOccurs "error" fs) = true →
      Parser.parseJson (.obj fs) = (Response.parse (.obj fs)).map .response)
  ∧ (keyOccurs "method" fs = false →
      (keyOccurs "id" fs = false ∨
        (keyOccurs "result" fs = false ∧ keyOccurs "error" fs = false)) →
      Parser.parseJson (.obj fs) =
        .error (.requestError (InvalidRequestException (recoverId fs)))) := by
  refine ⟨?_, ?_, ?_, ?_⟩
  · intro h1 h2
    simp [Parser.parseJson, h1, h2]
  · intro h1 h2
    simp [Parser.parseJson, h1, h2]
  · intro h1 h2 h3
    simp [Parser.parseJson, h1, h2, h3]
  · intro h1 h2
    rcases h2 with h2 | ⟨h2a, h2b⟩
    · simp [Parser.parseJson, h1, h2]
    · simp [Parser.parseJson, h1, h2a, h2b]

/-- C2 witness: the four classifier branches at concrete objects. -/
theorem classifier_precedence_witness :
    Parser.parseJson (.obj [("method", .str "m")]) =
      (Notification.parse (.obj [("method", .str "m")])).map .notification
  ∧ Parser.parseJson (.obj [("method", .str "m"), ("id", .num 1)]) =
      (Request.parse (.obj [("method", .str "m"), ("id", .num 1)])).map .request
  ∧ Parser.parseJson (.obj [("id", .num 1), ("result", .num 0)]) =
      (Response.parse (.obj [("id", .num 1), ("result", .num 0)])).map .response
  ∧ Parser.parseJson (.obj [("foo", .str "bar")]) =
      .error (.requestError (InvalidRequestException (recoverId [("foo", .str "bar")]))) :=
  ⟨(classifier_precedence _).1 rfl rfl,
   (classifier_precedence _).2.1 rfl rfl,
   (classifier_precedence _).2.2.1 rfl rfl rfl,
   (classifier_precedence _).2.2.2 rfl (Or.inl rfl)⟩

/-- Shape of a valid wire identifier member: null, number or string. -/
def idShape : Json → Bool
  | .null => true
  | .num _ => true
  | .str _ => true
  | _ => false

/-- Shape of a valid params member: array or object. -/
def paramShape : Json → Bool
  | .arr _ => true
  | .obj _ => true
  | _ => false

/-- The object has a member jsonrpc with value exactly "2.0". -/
def jsonrpcOk (fs : List (String × Json)) : Bool :=
  match lookupField "jsonrpc" fs with
  | some (.str s) => decide (s = "2.0")
  | _ => false

/-- The object has a member method whose value is a string. -/
def methodOk (fs : List (String × Json)) : Bool :=
  match lookupField "method" fs with
  | some (.str _) => true
  | _ => false

/-- The params member, when present, is an array or an object. -/
def paramsOkOpt (fs : List (String × Json)) : Bool :=
  match lookupField "params" fs with
  | some p => paramShape p
  | none => true

/-- The object has a member id of identifier shape. -/
def idOkReq (fs : List (String × Json)) : Bool :=
  match lookupField "id" fs with
  | some j => idShape j
  | none => false

/-- The object has a member code whose value is a number. -/
def codeOk (fs : List (String × Json)) : Bool :=
  match lookupField "code" fs with
  | some (.num _) => true
  | _ => false

/-- The object has a member message whose value is a string. -/
def messageOk (fs : List (String × Json)) : Bool :=
  match lookupField "message" fs with
  | some (.str _) => true
  | _ => false

/-- Syntactically valid Error JSON value per the spec's wire format:
an object with integer code, string message, and optional data of any
kind, no other members. -/
def validErrorJson : Json → Bool
  | .obj fs =>
    Json.wf (.obj fs)
    && fs.all (fun kv => decide (kv.1 = "code") || decide (kv.1 = "message")
        || decide (kv.1 = "data"))
    && codeOk fs && messageOk fs
  | _ => false

/-- Exactly one of result/error present; a present error member must be a
valid Error JSON value. -/
def errFieldOk (fs : List (String × Json)) : Bool :=
  match lookupField "result" fs, lookupField "error" fs with
  | some _, none => true
  | none, some e => validErrorJson e
  | _, _ => false

/-- Syntactically valid Request JSON value per the spec's wire format:
jsonrpc "2.0", string method, optional array-or-object params, identifier
id, no other members. -/
def validRequestJson : Json → Bool
  | .obj fs =>
    Json.wf (.obj fs)
    && fs.all (fun kv => decide (kv.1 = "jsonrpc") || decide (kv.1 = "method")
        || decide (kv.1 = "params") || decide (kv.1 = "id"))
    && jsonrpcOk fs && methodOk fs && paramsOkOpt fs && idOkReq fs
  | _ => false

/-- Syntactically valid Notification JSON value: as Request but with no id
member at all. -/
def validNotificationJson : Json → Bool
  | .obj fs =>
    Json.wf (.obj fs)
    && fs.all (fun kv => decide (kv.1 = "jsonrpc") || decide (kv.1 = "method")
        || decide (kv.1 = "params"))
    && jsonrpcOk fs && methodOk fs && paramsOkOpt fs
  | _ => false

/-- Syntactically valid Response JSON value: jsonrpc "2.0", identifier id,
and exactly one of result/error, no other members. -/
def validResponseJson : Json → Bool
  | .obj fs =>
    Json.wf (.obj fs)
    && fs.all (fun kv => decide (kv.1 = "jsonrpc") || decide (kv.1 = "id")
        || decide (kv.1 = "result") || decide (kv.1 = "error"))
    && jsonrpcOk fs && idOkReq fs && errFieldOk fs
  | _ => false

theorem all_lookup {P : String × Json → Bool} {fs : List (String × Json)}
    (hall : fs.all P = true) {k : String} {v : Json}
    (h : lookupField k fs = some v) : P (k, v) = true := by
  induction fs with
  | nil => simp [lookupField] at h
  | cons kv rest ih =>
    obtain ⟨k', w⟩ := kv
    simp only [List.all_cons, Bool.and_eq_true] at hall
    simp only [lookupField] at h
    by_cases hk : k' = k
    · simp [hk] at h
      subst hk
      subst h
      exact hall.1
    · simp [hk] at h
      exact ih hall.2 h

theorem lookup_none_of_allowed {P : String × Json → Bool} {fs : List (String × Json)}
    (hall : fs.all P = true) {k : String}
    (hk : ∀ v, P (k, v) = false) : lookupField k fs = none := by
  rcases hl : lookupField k fs with _ | v
  · rfl
  · have := all_lookup hall hl
    rw [hk v] at this
    exact Bool.noConfusion this

theorem wf_obj_nodup {fs : List (String × Json)} (h : Json.wf (.obj fs) = true) :
    keysNodup fs = true := by
  simp only [Json.wf, Bool.and_eq_true] at h
  exact h.1

theorem wf_obj_lookup {fs : List (String × Json)} {k : String} {v : Json}
    (h : Json.wf (.obj fs) = true) (hl : lookupField k fs = some v) :
    Json.wf v = true := by
  simp only [Json.wf, Bool.and_eq_true] at h
  exact wfFields_lookup h.2 hl

theorem jsonrpcOk_eq {fs : List (String × Json)} (h : jsonrpcOk fs = true) :
    lookupField "jsonrpc" fs = some (.str "2.0") := by
  unfold jsonrpcOk at h
  split at h
  next s heq =>
    rw [heq]
    simp only [decide_eq_true_eq] at h
    rw [h]
  next => simp at h

theorem methodOk_eq {fs : List (String × Json)} (h : methodOk fs = true) :
    ∃ m, lookupField "method" fs = some (.str m) := by
  unfold methodOk at h
  split at h
  next m heq => exact ⟨m, heq⟩
  next => simp at h

theorem idOkReq_eq {fs : List (String × Json)} (h : idOkReq fs = true) :
    ∃ j, lookupField "id" fs = some j ∧ idShape j = true := by
  unfold idOkReq at h
  split at h
  next j heq => exact ⟨j, heq, h⟩
  next => simp at h

theorem codeOk_eq {fs : List (String × Json)} (h : codeOk fs = true) :
    ∃ c, lookupField "code" fs = some (.num c) := by
  unfold codeOk at h
  split at h
  next c heq => exact ⟨c, heq⟩
  next => simp at h

theorem messageOk_eq {fs : List (String × Json)} (h : messageOk fs = true) :
    ∃ m, lookupField "message" fs = some (.str m) := by
  unfold messageOk at h
  split at h
  next m heq => exact ⟨m, heq⟩
  next => simp at h

theorem paramsOkOpt_eq {fs : List (String × Json)} (h : paramsOkOpt fs = true) :
    (∃ p, lookupField "params" fs = some p ∧ paramShape p = true)
  ∨ lookupField "params" fs = none := by
  unfold paramsOkOpt at h
  split at h
  next p heq => exact Or.inl ⟨p, heq, h⟩
  next heq => exact Or.inr heq

theorem errFieldOk_eq {fs : List (String × Json)} (h : errFieldOk fs = true) :
    (∃ rv, lookupField "result" fs = some rv ∧ lookupField "error" fs = none)
  ∨ (∃ ev, lookupField "result" fs = none ∧ lookupField "error" fs = some ev
      ∧ validErrorJson ev = true) := by
  unfold errFieldOk at h
  split at h
  next rv heq1 heq2 => exact Or.inl ⟨rv, heq1, heq2⟩
  next ev heq1 heq2 => exact Or.inr ⟨ev, heq1, heq2, h⟩
  next => simp at h

theorem id_roundtrip {j : Json} (h : idShape j = true) :
    ∃ i, Id.parse j = .ok i ∧ Id.toJson i = j := by
  match j with
  | .null => exact ⟨.null, rfl, rfl⟩
  | .num n => exact ⟨.intId n, rfl, rfl⟩
  | .str s => exact ⟨.strId s, rfl, rfl⟩
  | .bool _ | .arr _ | .obj _ => simp [idShape] at h

theorem param_roundtrip {p : Json} (h : paramShape p = true) :
    ∃ pp, Parameter.parse p = .ok pp ∧ Parameter.toJson pp = p
      ∧ pp ≠ Parameter.null := by
  match p with
  | .arr xs => exact ⟨.posParams xs, rfl, rfl, fun hh => Parameter.noConfusion hh⟩
  | .obj fs => exact ⟨.namedParams fs, rfl, rfl, fun hh => Parameter.noConfusion hh⟩
  | .null | .bool _ | .num _ | .str _ => simp [paramShape] at h

theorem error_roundtrip {v : Json} (h : validErrorJson v = true) :
    ∃ e, Error.parse v = .ok e ∧ JEqv e.toJson v := by
  match v with
  | .null | .bool _ | .num _ | .str _ | .arr _ => simp [validErrorJson] at h
  | .obj fs =>
    simp only [validErrorJson, Bool.and_eq_true] at h
    obtain ⟨⟨⟨hwf, hall⟩, hcode⟩, hmsg⟩ := h
    obtain ⟨c, hc⟩ := codeOk_eq hcode
    obtain ⟨m, hm⟩ := messageOk_eq hmsg
    refine ⟨⟨c, m, lookupField "data" fs⟩, ?_, ?_⟩
    · simp [Error.parse, hc, hm]
    · rcases hd : lookupField "data" fs with _ | d
      · show JEqv (.obj [("code", Json.num c), ("message", Json.str m)]) (.obj fs)
        refine JEqv.obj _ _ rfl (wf_obj_nodup hwf) ?_ ?_
        · intro k
          by_cases h1 : k = "code"
          · subst h1; rw [hc]; rfl
          by_cases h2 : k = "message"
          · subst h2; rw [hm]; rfl
          by_cases h3 : k = "data"
          · subst h3; rw [hd]; rfl
          · have hnone : lookupField k fs = none :=
              lookup_none_of_allowed hall (fun v => by simp [h1, h2, h3])
            rw [hnone]
            simp [lookupField, Ne.symm h1, Ne.symm h2]
        · intro k v w hv hw
          by_cases h1 : k = "code"
          · subst h1
            have hv' : Json.num c = v :=
              Option.some.inj (show some (Json.num c) = some v from hv)
            rw [hc] at hw
            have hw' : Json.num c = w := Option.some.inj hw
            rw [← hv', ← hw']
            exact JEqv.num c
          by_cases h2 : k = "message"
          · subst h2
            have hv' : Json.str m = v :=
              Option.some.inj (show some (Json.str m) = some v from hv)
            rw [hm] at hw
            have hw' : Json.str m = w := Option.some.inj hw
            rw [← hv', ← hw']
            exact JEqv.str m
          · have hnone : lookupField k
                [("code", Json.num c), ("message", Json.str m)] = none := by
              simp [lookupField, Ne.symm h1, Ne.symm h2]
            rw [hnone] at hv
            exact Option.noConfusion hv
      · show JEqv (.obj [("code", Json.num c), ("message", Json.str m), ("data", d)])
          (.obj fs)
        refine JEqv.obj _ _ rfl (wf_obj_nodup hwf) ?_ ?_
        · intro k
          by_cases h1 : k = "code"
          · subst h1; rw [hc]; rfl
          by_cases h2 : k = "message"
          · subst h2; rw [hm]; rfl
          by_cases h3 : k = "data"
          · subst h3; rw [hd]; rfl
          · have hnone : lookupField k fs = none :=
              lookup_none_of_allowed hall (fun v => by simp [h1, h2, h3])
            rw [hnone]
            simp [lookupField, Ne.symm h1, Ne.symm h2, Ne.symm h3]
        · intro k v w hv hw
          by_cases h1 : k = "code"
          · subst h1
            have hv' : Json.num c = v :=
              Option.some.inj (show some (Json.num c) = some v from hv)
            rw [hc] at hw
            have hw' : Json.num c = w := Option.some.inj hw
            rw [← hv', ← hw']
            exact JEqv.num c
          by_cases h2 : k = "message"
          · subst h2
            have hv' : Json.str m = v :=
              Option.some.inj (show some (Json.str m) = some v from hv)
            rw [hm] at hw
            have hw' : Json.str m = w := Option.some.inj hw
            rw [← hv', ← hw']
            exact JEqv.str m
          by_cases h3 : k = "data"
          · subst h3
            have hv' : d = v :=
              Option.some.inj (show some d = some v from hv)
            rw [hd] at hw
            have hw' : d = w := Option.some.inj hw
            rw [← hv', ← hw']
            exact jeqv_refl d (wf_obj_lookup hwf hd)
          · have hnone : lookupField k
                [("code", Json.num c), ("message", Json.str m), ("data", d)] = none := by
              simp [lookupField, Ne.symm h1, Ne.symm h2, Ne.symm h3]
            rw [hnone] at hv
            exact Option.noConfusion hv

theorem requestToJson_withParams (m : String) (p : Parameter) (i : Id) (h : p ≠ .null) :
    (Request.mk m p i).toJson = .obj [("jsonrpc", .str "2.0"), ("method", .str m),
      ("id", i.toJson), ("params", p.toJson)] := by
  cases p with
  | null => exact absurd rfl h
  | posParams xs => rfl
  | namedParams gs => rfl

theorem requestToJson_noParams (m : String) (i : Id) :
    (Request.mk m .null i).toJson =
      .obj [("jsonrpc", .str "2.0"), ("method", .str m), ("id", i.toJson)] := rfl

theorem notificationToJson_withParams (m : String) (p : Parameter) (h : p ≠ .null) :
    (Notification.mk m p).toJson = .obj [("jsonrpc", .str "2.0"), ("method", .str m),
      ("params", p.toJson)] := by
  cases p with
  | null => exact absurd rfl h
  | posParams xs => rfl
  | namedParams gs => rfl

theorem notificationToJson_noParams (m : String) :
    (Notification.mk m .null).toJson =
      .obj [("jsonrpc", .str "2.0"), ("method", .str m)] := rfl

theorem request_roundtrip {v : Json} (h : validRequestJson v = true) :
    ∃ r, Request.parse v = .ok r ∧ JEqv r.toJson v := by
  match v with
  | .null | .bool _ | .num _ | .str _ | .arr _ => simp [validRequestJson] at h
  | .obj fs =>
    simp only [validRequestJson, Bool.and_eq_true] at h
    obtain ⟨⟨⟨⟨⟨hwf, hall⟩, hrpc⟩, hmeth⟩, hpar⟩, hid⟩ := h
    have hrpc' := jsonrpcOk_eq hrpc
    obtain ⟨m, hm⟩ := methodOk_eq hmeth
    obtain ⟨jid, hid', hidsh⟩ := idOkReq_eq hid
    obtain ⟨i, hip, hij⟩ := id_roundtrip hidsh
    rcases paramsOkOpt_eq hpar with ⟨p, hp', hpsh⟩ | hp'
    · obtain ⟨pp, hpp, hppj, hppn⟩ := param_roundtrip hpsh
      refine ⟨⟨m, pp, i⟩, ?_, ?_⟩
      · simp [Request.parse, hm, hid', hip, hp', parseParams, hpp]
      · rw [requestToJson_withParams m pp i hppn]
        refine JEqv.obj _ _ rfl (wf_obj_nodup hwf) ?_ ?_
        · intro k
          by_cases h1 : k = "jsonrpc"
          · subst h1; rw [hrpc']; rfl
          by_cases h2 : k = "method"
          · subst h2; rw [hm]; rfl
          by_cases h3 : k = "id"
          · subst h3; rw [hid']; rfl
          by_cases h4 : k = "params"
          · subst h4; rw [hp']; rfl
          · have hnone : lookupField k fs = none :=
              lookup_none_of_allowed hall (fun v => by simp [h1, h2, h3, h4])
            rw [hnone]
            simp [lookupField, Ne.symm h1, Ne.symm h2, Ne.symm h3, Ne.symm h4]
        · intro k v w hv hw
          by_cases h1 : k = "jsonrpc"
          · subst h1
            have hv' : Json.str "2.0" = v :=
              Option.some.inj (show some (Json.str "2.0") = some v from hv)
            rw [hrpc'] at hw
            have hw' : Json.str "2.0" = w := Option.some.inj hw
            rw [← hv', ← hw']
            exact JEqv.str "2.0"
          by_cases h2 : k = "method"
          · subst h2
            have hv' : Json.str m = v :=
              Option.some.inj (show some (Json.str m) = some v from hv)
            rw [hm] at hw
            have hw' : Json.str m = w := Option.some.inj hw
            rw [← hv', ← hw']
            exact JEqv.str m
          by_cases h3 : k = "id"
          · subst h3
            have hv' : Id.toJson i = v :=
              Option.some.inj (show some (Id.toJson i) = some v from hv)
            rw [hid'] at hw
            have hw' : jid = w := Option.some.inj hw
            rw [← hv', ← hw', hij]
            exact jeqv_refl jid (wf_obj_lookup hwf hid')
          by_cases h4 : k = "params"
          · subst h4
            have hv' : Parameter.toJson pp = v :=
              Option.some.inj (show some (Parameter.toJson pp) = some v from hv)
            rw [hp'] at hw
            have hw' : p = w := Option.some.inj hw
            rw [← hv', ← hw', hppj]
            exact jeqv_refl p (wf_obj_lookup hwf hp')
          · have hnone : lookupField k [("jsonrpc", Json.str "2.0"), ("method", Json.str m),
                ("id", Id.toJson i), ("params", Parameter.toJson pp)] = none := by
              simp [lookupField, Ne.symm h1, Ne.symm h2, Ne.symm h3, Ne.symm h4]
            rw [hnone] at hv
            exact Option.noConfusion hv
    · refine ⟨⟨m, .null, i⟩, ?_, ?_⟩
      · simp [Request.parse, hm, hid', hip, hp', parseParams]
      · rw [requestToJson_noParams m i]
        refine JEqv.obj _ _ rfl (wf_obj_nodup hwf) ?_ ?_
        · intro k
          by_cases h1 : k = "jsonrpc"
          · subst h1; rw [hrpc']; rfl
          by_cases h2 : k = "method"
          · subst h2; rw [hm]; rfl
          by_cases h3 : k = "id"
          · subst h3; rw [hid']; rfl
          by_cases h4 : k = "params"
          · subst h4; rw [hp']; rfl
          · have hnone : lookupField k fs = none :=
              lookup_none_of_allowed hall (fun v => by simp [h1, h2, h3, h4])
            rw [hnone]
            simp [lookupField, Ne.symm h1, Ne.symm h2, Ne.symm h3]
        · intro k v w hv hw
          by_cases h1 : k = "jsonrpc"
          · subst h1
            have hv' : Json.str "2.0" = v :=
              Option.some.inj (show some (Json.str "2.0") = some v from hv)
            rw [hrpc'] at hw
            have hw' : Json.str "2.0" = w := Option.some.inj hw
            rw [← hv', ← hw']
            exact JEqv.str "2.0"
          by_cases h2 : k = "method"
          · subst h2
            have hv' : Json.str m = v :=
              Option.some.inj (show some (Json.str m) = some v from hv)
            rw [hm] at hw
            have hw' : Json.str m = w := Option.some.inj hw
            rw [← hv', ← hw']
            exact JEqv.str m
          by_cases h3 : k = "id"
          · subst h3
            have hv' : Id.toJson i = v :=
              Option.some.inj (show some (Id.toJson i) = some v from hv)
            rw [hid'] at hw
            have hw' : jid = w := Option.some.inj hw
            rw [← hv', ← hw', hij]
            exact jeqv_refl jid (wf_obj_lookup hwf hid')
          by_cases h4 : k = "params"
          · subst h4
            rw [hp'] at hw
            exact Option.noConfusion hw
          · have hnone : lookupField k [("jsonrpc", Json.str "2.0"), ("method", Json.str m),
                ("id", Id.toJson i)] = none := by
              simp [lookupField, Ne.symm h1, Ne.symm h2, Ne.symm h3]
            rw [hnone] at hv
            exact Option.noConfusion hv

theorem notification_roundtrip {v : Json} (h : validNotificationJson v = true) :
    ∃ n, Notification.parse v = .ok n ∧ JEqv n.toJson v := by
  match v with
  | .null | .bool _ | .num _ | .str _ | .arr _ => simp [validNotificationJson] at h
  | .obj fs =>
    simp only [validNotificationJson, Bool.and_eq_true] at h
    obtain ⟨⟨⟨⟨hwf, hall⟩, hrpc⟩, hmeth⟩, hpar⟩ := h
    have hrpc' := jsonrpcOk_eq hrpc
    obtain ⟨m, hm⟩ := methodOk_eq hmeth
    rcases paramsOkOpt_eq hpar with ⟨p, hp', hpsh⟩ | hp'
    · obtain ⟨pp, hpp, hppj, hppn⟩ := param_roundtrip hpsh
      refine ⟨⟨m, pp⟩, ?_, ?_⟩
      · simp [Notification.parse, hm, hp', parseParams, hpp]
      · rw [notificationToJson_withParams m pp hppn]
        refine JEqv.obj _ _ rfl (wf_obj_nodup hwf) ?_ ?_
        · intro k
          by_cases h1 : k = "jsonrpc"
          · subst h1; rw [hrpc']; rfl
          by_cases h2 : k = "method"
          · subst h2; rw [hm]; rfl
          by_cases h3 : k = "params"
          · subst h3; rw [hp']; rfl
          · have hnone : lookupField k fs = none :=
              lookup_none_of_allowed hall (fun v => by simp [h1, h2, h3])
            rw [hnone]
            simp [lookupField, Ne.symm h1, Ne.symm h2, Ne.symm h3]
        · intro k v w hv hw
          by_cases h1 : k = "jsonrpc"
          · subst h1
            have hv' : Json.str "2.0" = v :=
              Option.some.inj (show some (Json.str "2.0") = some v from hv)
            rw [hrpc'] at hw
            have hw' : Json.str "2.0" = w := Option.some.inj hw
            rw [← hv', ← hw']
            exact JEqv.str "2.0"
          by_cases h2 : k = "method"
          · subst h2
            have hv' : Json.str m = v :=
              Option.some.inj (show some (Json.str m) = some v from hv)
            rw [hm] at hw
            have hw' : Json.str m = w := Option.some.inj hw
            rw [← hv', ← hw']
            exact JEqv.str m
          by_cases h3 : k = "params"
          · subst h3
            have hv' : Parameter.toJson pp = v :=
              Option.some.inj (show some (Parameter.toJson pp) = some v from hv)
            rw [hp'] at hw
            have hw' : p = w := Option.some.inj hw
            rw [← hv', ← hw', hppj]
            exact jeqv_refl p (wf_obj_lookup hwf hp')
          · have hnone : lookupField k [("jsonrpc", Json.str "2.0"), ("method", Json.str m),
                ("params", Parameter.toJson pp)] = none := by
              simp [lookupField, Ne.symm h1, Ne.symm h2, Ne.symm h3]
            rw [hnone] at hv
            exact Option.noConfusion hv
    · refine ⟨⟨m, .null⟩, ?_, ?_⟩
      · simp [Notification.parse, hm, hp', parseParams]
      · rw [notificationToJson_noParams m]
        refine JEqv.obj _ _ rfl (wf_obj_nodup hwf) ?_ ?_
        · intro k
          by_cases h1 : k = "jsonrpc"
          · subst h1; rw [hrpc']; rfl
          by_cases h2 : k = "method"
          · subst h2; rw [hm]; rfl
          by_cases h3 : k = "params"
          · subst h3; rw [hp']; rfl
          · have hnone : lookupField k fs = none :=
              lookup_none_of_allowed hall (fun v => by simp [h1, h2, h3])
            rw [hnone]
            simp [lookupField, Ne.symm h1, Ne.symm h2]
        · intro k v w hv hw
          by_cases h1 : k = "jsonrpc"
          · subst h1
            have hv' : Json.str "2.0" = v :=
              Option.some.inj (show some (Json.str "2.0") = some v from hv)
            rw [hrpc'] at hw
            have hw' : Json.str "2.0" = w := Option.some.inj hw
            rw [← hv', ← hw']
            exact JEqv.str "2.0"
          by_cases h2 : k = "method"
          · subst h2
            have hv' : Json.str m = v :=
              Option.some.inj (show some (Json.str m) = some v from hv)
            rw [hm] at hw
            have hw' : Json.str m = w := Option.some.inj hw
            rw [← hv', ← hw']
            exact JEqv.str m
          by_cases h3 : k = "params"
          · subst h3
            rw [hp'] at hw
            exact Option.noConfusion hw
          · have hnone : lookupField k
                [("jsonrpc", Json.str "2.0"), ("method", Json.str m)] = none := by
              simp [lookupField, Ne.symm h1, Ne.symm h2]
            rw [hnone] at hv
            exact Option.noConfusion hv

theorem response_roundtrip {v : Json} (h : validResponseJson v = true) :
    ∃ r, Response.parse v = .ok r ∧ JEqv r.toJson v := by
  match v with
  | .null | .bool _ | .num _ | .str _ | .arr _ => simp [validResponseJson] at h
  | .obj fs =>
    simp only [validResponseJson, Bool.and_eq_true] at h
    obtain ⟨⟨⟨⟨hwf, hall⟩, hrpc⟩, hid⟩, herr⟩ := h
    have hrpc' := jsonrpcOk_eq hrpc
    obtain ⟨jid, hid', hidsh⟩ := idOkReq_eq hid
    obtain ⟨i, hip, hij⟩ := id_roundtrip hidsh
    rcases errFieldOk_eq herr with ⟨rv, hr', he'⟩ | ⟨ev, hr', he', hev⟩
    · refine ⟨⟨i, some rv, none⟩, ?_, ?_⟩
      · simp [Response.parse, hid', hip, hr', he']
      · show JEqv (.obj [("jsonrpc", Json.str "2.0"), ("id", Id.toJson i), ("result", rv)])
          (.obj fs)
        refine JEqv.obj _ _ rfl (wf_obj_nodup hwf) ?_ ?_
        · intro k
          by_cases h1 : k = "jsonrpc"
          · subst h1; rw [hrpc']; rfl
          by_cases h2 : k = "id"
          · subst h2; rw [hid']; rfl
          by_cases h3 : k = "result"
          · subst h3; rw [hr']; rfl
          by_cases h4 : k = "error"
          · subst h4; rw [he']; rfl
          · have hnone : lookupField k fs = none :=
              lookup_none_of_allowed hall (fun v => by simp [h1, h2, h3, h4])
            rw [hnone]
            simp [lookupField, Ne.symm h1, Ne.symm h2, Ne.symm h3]
        · intro k v w hv hw
          by_cases h1 : k = "jsonrpc"
          · subst h1
            have hv' : Json.str "2.0" = v :=
              Option.some.inj (show some (Json.str "2.0") = some v from hv)
            rw [hrpc'] at hw
            have hw' : Json.str "2.0" = w := Option.some.inj hw
            rw [← hv', ← hw']
            exact JEqv.str "2.0"
          by_cases h2 : k = "id"
          · subst h2
            have hv' : Id.toJson i = v :=
              Option.some.inj (show some (Id.toJson i) = some v from hv)
            rw [hid'] at hw
            have hw' : jid = w := Option.some.inj hw
            rw [← hv', ← hw', hij]
            exact jeqv_refl jid (wf_obj_lookup hwf hid')
          by_cases h3 : k = "result"
          · subst h3
            have hv' : rv = v :=
              Option.some.inj (show some rv = some v from hv)
            rw [hr'] at hw
            have hw' : rv = w := Option.some.inj hw
            rw [← hv', ← hw']
            exact jeqv_refl rv (wf_obj_lookup hwf hr')
          · have hnone : lookupField k
                [("jsonrpc", Json.str "2.0"), ("id", Id.toJson i), ("result", rv)] = none := by
              simp [lookupField, Ne.symm h1, Ne.symm h2, Ne.symm h3]
            rw [hnone] at hv
            exact Option.noConfusion hv
    · obtain ⟨err, hep, hejv⟩ := error_roundtrip hev
      refine ⟨⟨i, none, some err⟩, ?_, ?_⟩
      · simp [Response.parse, hid', hip, hr', he', hep]
      · show JEqv (.obj [("jsonrpc", Json.str "2.0"), ("id", Id.toJson i),
          ("error", Error.toJson err)]) (.obj fs)
        refine JEqv.obj _ _ rfl (wf_obj_nodup hwf) ?_ ?_
        · intro k
          by_cases h1 : k = "jsonrpc"
          · subst h1; rw [hrpc']; rfl
          by_cases h2 : k = "id"
          · subst h2; rw [hid']; rfl
          by_cases h3 : k = "error"
          · subst h3; rw [he']; rfl
          by_cases h4 : k = "result"
          · subst h4; rw [hr']; rfl
          · have hnone : lookupField k fs = none :=
              lookup_none_of_allowed hall (fun v => by simp [h1, h2, h3, h4])
            rw [hnone]
            simp [lookupField, Ne.symm h1, Ne.symm h2, Ne.symm h3]
        · intro k v w hv hw
          by_cases h1 : k = "jsonrpc"
          · subst h1
            have hv' : Json.str "2.0" = v :=
              Option.some.inj (show some (Json.str "2.0") = some v from hv)
            rw [hrpc'] at hw
            have hw' : Json.str "2.0" = w := Option.some.inj hw
            rw [← hv', ← hw']
            exact JEqv.str "2.0"
          by_cases h2 : k = "id"
          · subst h2
            have hv' : Id.toJson i = v :=
              Option.some.inj (show some (Id.toJson i) = some v from hv)
            rw [hid'] at hw
            have hw' : jid = w := Option.some.inj hw
            rw [← hv', ← hw', hij]
            exact jeqv_refl jid (wf_obj_lookup hwf hid')
          by_cases h3 : k = "error"
          · subst h3
            have hv' : Error.toJson err = v :=
              Option.some.inj (show some (Error.toJson err) = some v from hv)
            rw [he'] at hw
            have hw' : ev = w := Option.some.inj hw
            rw [← hv', ← hw']
            exact hejv
          · have hnone : lookupField k [("jsonrpc", Json.str "2.0"), ("id", Id.toJson i),
                ("error", Error.toJson err)] = none := by
              simp [lookupField, Ne.symm h1, Ne.symm h2, Ne.symm h3]
            rw [hnone] at hv
            exact Option.noConfusion hv

/-- C1: for every syntactically valid Request, Notification, Response or
Error JSON value v (per the spec's wire format), parsing v into the typed
entity succeeds and calling to_json on it yields a JSON value structurally
equal to v, ignoring object key ordering. -/
theorem parse_toJson_roundtrip (v : Json) :
    (validRequestJson v = true → ∃ r, Request.parse v = .ok r ∧ JEqv r.toJson v)
  ∧ (validNotificationJson v = true →
      ∃ n, Notification.parse v = .ok n ∧ JEqv n.toJson v)
  ∧ (validResponseJson v = true → ∃ r, Response.parse v = .ok r ∧ JEqv r.toJson v)
  ∧ (validErrorJson v = true → ∃ e, Error.parse v = .ok e ∧ JEqv e.toJson v) :=
  ⟨request_roundtrip, notification_roundtrip, response_roundtrip, error_roundtrip⟩

/-- C1 witness: the round-trip at one concrete valid value per entity kind
(with object members deliberately out of the serializer's order). -/
theorem parse_toJson_roundtrip_witness :
    (∃ r, Request.parse (.obj [("jsonrpc", .str "2.0"), ("method", .str "m"),
        ("params", .arr [.num 1]), ("id", .num 9)]) = .ok r ∧
      JEqv r.toJson (.obj [("jsonrpc", .str "2.0"), ("method", .str "m"),
        ("params", .arr [.num 1]), ("id", .num 9)]))
  ∧ (∃ n, Notification.parse (.obj [("method", .str "n"), ("jsonrpc", .str "2.0")]) =
        .ok n ∧
      JEqv n.toJson (.obj [("method", .str "n"), ("jsonrpc", .str "2.0")]))
  ∧ (∃ r, Response.parse (.obj [("jsonrpc", .str "2.0"), ("id", .str "x"),
        ("error", .obj [("message", .str "boom"), ("code", .num 5)])]) = .ok r ∧
      JEqv r.toJson (.obj [("jsonrpc", .str "2.0"), ("id", .str "x"),
        ("error", .obj [("message", .str "boom"), ("code", .num 5)])]))
  ∧ (∃ e, Error.parse (.obj [("message", .str "m"), ("code", .num 7),
        ("data", .null)]) = .ok e ∧
      JEqv e.toJson (.obj [("message", .str "m"), ("code", .num 7), ("data", .null)])) :=
  ⟨(parse_toJson_roundtrip _).1 (by decide),
   (parse_toJson_roundtrip _).2.1 (by decide),
   (parse_toJson_roundtrip _).2.2.1 (by decide),
   (parse_toJson_roundtrip _).2.2.2 (by decide)⟩

/-- C3 counterexample: the empty array satisfies is_batch but parsing it
fails, so the classification predicates are not equivalent to a successful
parse of the corresponding variant. -/
theorem is_batch_parity_cex :
    Parser.is_batch (.arr []) = true ∧ Parser.parseOk (.arr []) = false :=
  ⟨rfl, rfl⟩

/-- C3 (amended): each classification predicate is necessary for parse to
succeed with the corresponding variant: if parse yields a Request then
is_request holds, and analogously for notification, response and batch;
the predicates are not sufficient, since construction and validation can
still fail after the key-inspection test. -/
theorem classification_necessity (j : Json) :
    (∀ r, Parser.parseJson j = .ok (.request r) → Parser.is_request j = true)
  ∧ (∀ n, Parser.parseJson j = .ok (.notification n) → Parser.is_notification j = true)
  ∧ (∀ r, Parser.parseJson j = .ok (.response r) → Parser.is_response j = true)
  ∧ (∀ es, Parser.parseJson j = .ok (.batch es) → Parser.is_batch j = true) := by
  match j with
  | .null | .bool _ | .num _ | .str _ =>
    refine ⟨?_, ?_, ?_, ?_⟩ <;> (intro x h; simp [Parser.parseJson] at h)
  | .arr xs =>
    refine ⟨?_, ?_, ?_, fun es h => rfl⟩ <;>
      (intro x h
       simp only [Parser.parseJson] at h
       by_cases he : xs.isEmpty = true <;> simp [he] at h)
  | .obj fs =>
    refine ⟨?_, ?_, ?_, ?_⟩ <;> intro x h
    · rcases parseJson_obj_cases fs _ h with ⟨_, _, hb⟩ | ⟨hc, _, hb⟩ | ⟨_, _, hb⟩
      · exact Entity.noConfusion hb
      · exact hc
      · exact Entity.noConfusion hb
    · rcases parseJson_obj_cases fs _ h with ⟨hc, _, hb⟩ | ⟨_, _, hb⟩ | ⟨_, _, hb⟩
      · exact hc
      · exact Entity.noConfusion hb
      · exact Entity.noConfusion hb
    · rcases parseJson_obj_cases fs _ h with ⟨_, _, hb⟩ | ⟨_, _, hb⟩ | ⟨hc, _, hb⟩
      · exact Entity.noConfusion hb
      · exact Entity.noConfusion hb
      · exact hc
    · rcases parseJson_obj_cases fs _ h with ⟨_, _, hb⟩ | ⟨_, _, hb⟩ | ⟨_, _, hb⟩
      · exact Entity.noConfusion hb
      · exact Entity.noConfusion hb
      · exact Entity.noConfusion hb

/-- C3 witness: the necessity direction at one concrete input per
variant. -/
theorem classification_necessity_witness :
    Parser.is_request (.obj [("method", .str "m"), ("id", .num 1)]) = true
  ∧ Parser.is_notification (.obj [("method", .str "m")]) = true
  ∧ Parser.is_response (.obj [("id", .num 1), ("result", .num 0)]) = true
  ∧ Parser.is_batch (.arr [.obj [("method", .str "m")]]) = true :=
  ⟨(classification_necessity _).1 ⟨"m", .null, .intId 1⟩ rfl,
   (classification_necessity _).2.1 ⟨"m", .null⟩ rfl,
   (classification_necessity _).2.2.1 ⟨.intId 1, some (.num 0), none⟩ rfl,
   (classification_necessity _).2.2.2 [.notification ⟨"m", .null⟩] rfl⟩

/-- C5: every response produced by parsing has exactly one of result/error
set; a JSON object with both result and error present, or with neither, is
rejected; and serialization emits exactly the one of result/error that is
set. -/
theorem response_exactly_one :
    (∀ (j : Json) (r : Response), Response.parse j = .ok r →
      (r.result.isSome = true ∧ r.error.isNone = true)
    ∨ (r.result.isNone = true ∧ r.error.isSome = true))
  ∧ (∀ fs, keyOccurs "result" fs = true → keyOccurs "error" fs = true →
      ∀ r, Response.parse (.obj fs) ≠ .ok r)
  ∧ (∀ fs, keyOccurs "result" fs = false → keyOccurs "error" fs = false →
      ∀ r, Response.parse (.obj fs) ≠ .ok r)
  ∧ (∀ r : Response,
      ((r.result.isSome = true ∧ r.error.isNone = true)
        ∨ (r.result.isNone = true ∧ r.error.isSome = true)) →
      lookupField "result" r.toJson.objFields = r.result
    ∧ lookupField "error" r.toJson.objFields = r.error.map Error.toJson) := by
  refine ⟨?_, ?_, ?_, ?_⟩
  · intro j r h
    match j with
    | .null | .bool _ | .num _ | .str _ | .arr _ => simp [Response.parse] at h
    | .obj fs =>
      rcases hid : lookupField "id" fs with _ | jid
      · simp [Response.parse, hid] at h
      rcases hpi : Id.parse jid with e | i
      · simp [Response.parse, hid, hpi] at h
      rcases hr : lookupField "result" fs with _ | rv <;>
        rcases he : lookupField "error" fs with _ | ev
      · simp [Response.parse, hid, hpi, hr, he] at h
      · rcases hep : Error.parse ev with e' | err
        · simp [Response.parse, hid, hpi, hr, he, hep] at h
        · simp only [Response.parse, hid, hpi, hr, he, hep] at h
          injection h with h
          subst h
          exact Or.inr ⟨rfl, rfl⟩
      · simp only [Response.parse, hid, hpi, hr, he] at h
        injection h with h
        subst h
        exact Or.inl ⟨rfl, rfl⟩
      · simp [Response.parse, hid, hpi, hr, he] at h
  · intro fs h1 h2 r h
    rcases hr : lookupField "result" fs with _ | rv
    · rw [← lookupField_isSome, hr] at h1; simp at h1
    rcases he : lookupField "error" fs with _ | ev
    · rw [← lookupField_isSome, he] at h2; simp at h2
    rcases hid : lookupField "id" fs with _ | jid
    · simp [Response.parse, hid] at h
    rcases hpi : Id.parse jid with e | i
    · simp [Response.parse, hid, hpi] at h
    simp [Response.parse, hid, hpi, hr, he] at h
  · intro fs h1 h2 r h
    rcases hr : lookupField "result" fs with _ | rv
    case _ =>
      rcases he : lookupField "error" fs with _ | ev
      case _ =>
        rcases hid : lookupField "id" fs with _ | jid
        · simp [Response.parse, hid] at h
        rcases hpi : Id.parse jid with e | i
        · simp [Response.parse, hid, hpi] at h
        simp [Response.parse, hid, hpi, hr, he] at h
      case _ =>
        rw [← lookupField_isSome, he] at h2; simp at h2
    case _ =>
      rw [← lookupField_isSome, hr] at h1; simp at h1
  · rintro ⟨i, res, err⟩ hinv
    rcases res with _ | v <;> rcases err with _ | e
    · simp at hinv
    · exact ⟨rfl, rfl⟩
    · exact ⟨rfl, rfl⟩
    · simp at hinv

/-- C5 witness: the four parts at concrete inputs: a parsed success
response, rejection with both members, rejection with neither, and the
serialization of a result-bearing response. -/
theorem response_exactly_one_witness :
    (((some (Json.num 3)).isSome = true ∧ (none : Option Error).isNone = true)
      ∨ ((some (Json.num 3)).isNone = true ∧ (none : Option Error).isSome = true))
  ∧ Response.parse (.obj [("id", .num 1), ("result", .num 3), ("error", .null)]) ≠
      .ok ⟨.null, none, none⟩
  ∧ Response.parse (.obj [("id", .num 1)]) ≠ .ok ⟨.null, none, none⟩
  ∧ (lookupField "result" (Response.toJson ⟨.intId 1, some (.num 3), none⟩).objFields =
      some (.num 3)
    ∧ lookupField "error" (Response.toJson ⟨.intId 1, some (.num 3), none⟩).objFields =
      Option.map Error.toJson none) :=
  ⟨response_exactly_one.1 (.obj [("id", .num 1), ("result", .num 3)])
      ⟨.intId 1, some (.num 3), none⟩ rfl,
   response_exactly_one.2.1 [("id", .num 1), ("result", .num 3), ("error", .null)]
      rfl rfl ⟨.null, none, none⟩,
   response_exactly_one.2.2.1 [("id", .num 1)] rfl rfl ⟨.null, none, none⟩,
   response_exactly_one.2.2.2 ⟨.intId 1, some (.num 3), none⟩ (Or.inl ⟨rfl, rfl⟩)⟩

/-- C10 counterexample: with value 5 stored under key "a" and default value
5, the typed accessor with default returns the default value even though
has "a" is true, so "returns the default exactly when has(k) is false"
fails in the only-if direction. -/
theorem get_default_alias_cex :
    (Parameter.namedParams [("a", .num 5)]).hasKey "a" = true
  ∧ (Parameter.namedParams [("a", .num 5)]).getKeyD "a" asInt 5 = .ok 5 :=
  ⟨rfl, rfl⟩

/-- C10 (amended): the typed accessor with default returns the default
whenever the key or index is absent; when it is present the accessor
performs the typed access of the stored value (whose result may happen to
coincide with the default) and fails on a coercion mismatch rather than
returning the default. -/
theorem get_default_behavior {α : Type} (p : Parameter) (key : String) (idx : Nat)
    (coerce : Json → Option α) (d : α) :
    (p.hasKey key = false → p.getKeyD key coerce d = .ok d)
  ∧ (p.hasKey key = true → p.getKeyD key coerce d = p.getTypedKey key coerce)
  ∧ (∀ v, p.getKey key = .ok v → coerce v = none →
      p.getTypedKey key coerce = .error "type mismatch")
  ∧ (p.hasIdx idx = false → p.getIdxD idx coerce d = .ok d)
  ∧ (p.hasIdx idx = true → p.getIdxD idx coerce d = p.getTypedIdx idx coerce)
  ∧ (∀ v, p.getIdx idx = .ok v → coerce v = none →
      p.getTypedIdx idx coerce = .error "type mismatch") := by
  refine ⟨?_, ?_, ?_, ?_, ?_, ?_⟩
  · intro h; simp [Parameter.getKeyD, h]
  · intro h; simp [Parameter.getKeyD, h]
  · intro v hv hc; simp [Parameter.getTypedKey, hv, hc]
  · intro h; simp [Parameter.getIdxD, h]
  · intro h; simp [Parameter.getIdxD, h]
  · intro v hv hc; simp [Parameter.getTypedIdx, hv, hc]

/-- C10 witness: the six behaviors at concrete parameter sets. -/
theorem get_default_behavior_witness :
    (Parameter.null).getKeyD "a" asInt 7 = .ok 7
  ∧ (Parameter.namedParams [("a", .str "x")]).getKeyD "a" asInt 7 =
      (Parameter.namedParams [("a", .str "x")]).getTypedKey "a" asInt
  ∧ (Parameter.namedParams [("a", .str "x")]).getTypedKey "a" asInt =
      .error "type mismatch"
  ∧ (Parameter.null).getIdxD 0 asInt 7 = .ok 7
  ∧ (Parameter.posParams [.str "x"]).getIdxD 0 asInt 7 =
      (Parameter.posParams [.str "x"]).getTypedIdx 0 asInt
  ∧ (Parameter.posParams [.str "x"]).getTypedIdx 0 asInt = .error "type mismatch" :=
  ⟨(get_default_behavior Parameter.null "a" 0 asInt 7).1 rfl,
   (get_default_behavior (Parameter.namedParams [("a", .str "x")]) "a" 0 asInt 7).2.1 rfl,
   (get_default_behavior (Parameter.namedParams [("a", .str "x")]) "a" 0 asInt 7).2.2.1
     (.str "x") rfl rfl,
   (get_default_behavior Parameter.null "a" 0 asInt 7).2.2.2.1 rfl,
   (get_default_behavior (Parameter.posParams [.str "x"]) "a" 0 asInt 7).2.2.2.2.1 rfl,
   (get_default_behavior (Parameter.posParams [.str "x"]) "a" 0 asInt 7).2.2.2.2.2
     (.str "x") rfl rfl⟩

end jsonrpcpp
